import Mathlib

/-!
Verification of the `bitflags` serde-support codecs
(`src/external/serde_support.rs`) against the repository specification.

The file embeds the two codecs shallowly:

* the serde data model is a small inductive `Value` (string scalar, integer
  scalar of the underlying `Bits` type, structured record with named fields);
* the serde error constructors (`custom`, `duplicate_field`, `unknown_field`,
  `missing_field`, invalid-type) become the inductive `DeError`;
* `legacy_format::serialize` threads a `SerializeStruct` builder, and
  `legacy_format::deserialize`'s `BitsVisitor::visit_map` becomes the
  recursive field scan `legacy_format.visit_map` over the record's field list
  with the `Option Bits` slot passed explicitly;
* `serialize_bits_default` / `deserialize_bits_default` branch on the
  context's human-readable capability, which is passed as a `Bool`.

The flags container type itself (its `bits()` accessor, `from_bits_retain`
constructor, `Display` renderer and `FromStr` parser) lives in the repository
outside the extracted sources, so those pieces are modelled from the
specification, as marked on each definition.
-/

/-- The underlying primitive unsigned-integer type of a flags value
(`Bits` in the source). Modelled as `Nat`; the codecs never perform
arithmetic that could overflow, they only move the value around. -/
abbrev Bits := Nat

/-- Modelled from the spec: a flags value is an opaque bit-set over `Bits`,
exposing a raw `bits` accessor. Any bit pattern is representable, including
bits with no named flag (spec section 3). -/
structure Flags where
  bits : Bits
deriving DecidableEq

/-- Modelled from the spec: `from_bits_retain` accepts any bit pattern,
including bits not corresponding to named flags, without validation or
error (spec section 3, invariant `from_bits_retain(b).bits() == b`). -/
def from_bits_retain (b : Bits) : Flags := ⟨b⟩

/-- The serde data model, restricted to the shapes the two codecs touch:
a string scalar, a scalar of the `Bits` type, and a structured record
with a type name and ordered named fields. -/
inductive Value where
  | str (s : String)
  | int (n : Bits)
  | record (struct_name : String) (fields : List (String × Value))

/-- The deserializer errors the codecs can signal: the canned serde errors
`duplicate_field`, `unknown_field`, `missing_field`, the custom error built
from a message string (used for parser failures), and the invalid-type
error a visitor signals when the input has the wrong shape. -/
inductive DeError where
  | custom (msg : String)
  | invalidType (expected : String)
  | duplicateField (field : String)
  | unknownField (field : String) (expected : List String)
  | missingField (field : String)
deriving DecidableEq

/-- Decidable equality on `Except`, used to evaluate the codecs on concrete
inputs in the witnesses and counterexamples below. -/
instance instDecEqExcept {e a : Type} [DecidableEq e] [DecidableEq a] :
    DecidableEq (Except e a) := fun x y =>
  match x, y with
  | Except.ok u, Except.ok v =>
      if h : u = v then isTrue (by rw [h]) else isFalse (by simp [h])
  | Except.error u, Except.error v =>
      if h : u = v then isTrue (by rw [h]) else isFalse (by simp [h])
  | Except.ok _, Except.error _ => isFalse (by simp)
  | Except.error _, Except.ok _ => isFalse (by simp)

/-- Reading a scalar of type `Bits` from the input (what `B::deserialize`
and `map.next_value::<Bits>()` do): succeeds exactly on an integer scalar. -/
def deserialize_bits_value : Value → Except DeError Bits
  | Value.int n => Except.ok n
  | _ => Except.error (DeError.invalidType "an integer of the Bits type")

/-! ### The flags container's textual renderer and parser

Modelled from the spec (sections 3 and 6): the renderer produces the
pipe-separated name form, with a numeric fallback segment for bits that no
named flag covers; the parser accepts that form (a recognized name or a
numeric fallback per segment, surrounding spaces ignored) and fails on any
other segment. The named constants are those of the repository's own test
flags type (`SerdeFlags` / `SerdeLegacyFlags`): A=1, B=2, C=4, D=8. -/

/-- Modelled from the spec: the named flags of the repository's test flags
type, in declaration order. -/
def flag_table : List (String × Bits) := [("A", 1), ("B", 2), ("C", 4), ("D", 8)]

/-- Render pass over the named flags: each flag whose bits are still wholly
contained in the remaining bits contributes its name and has its bits
removed; returns the name segments and the bits left uncovered. -/
def display_segs (remaining : Bits) : List (String × Bits) → (List (List Char) × Bits)
  | [] => ([], remaining)
  | p :: rest =>
      if p.2 ≠ 0 ∧ remaining &&& p.2 = p.2 then
        let r := display_segs (remaining ^^^ p.2) rest
        (p.1.data :: r.1, r.2)
      else display_segs remaining rest

/-- Join segments with the pipe separator, yielding the characters of the
pipe-separated form. -/
def join_pipe : List (List Char) → List Char
  | [] => []
  | [s] => s
  | s :: rest => s ++ (' ' :: '|' :: ' ' :: join_pipe rest)

/-- Modelled from the spec: the flags value's textual renderer: pipe-separated
flag names, with a numeric (decimal) fallback segment for bits no named flag
covers. -/
def display (flags : Flags) : String :=
  let r := display_segs flags.bits flag_table
  let segs := if r.2 = 0 then r.1 else r.1 ++ [Nat.toDigits 10 r.2]
  String.mk (join_pipe segs)

/-- Drop leading space characters. -/
def drop_spaces : List Char → List Char
  | ' ' :: rest => drop_spaces rest
  | l => l

/-- Drop leading and trailing space characters. -/
def trim_chars (l : List Char) : List Char :=
  drop_spaces ((drop_spaces l.reverse).reverse)

/-- Split a character list at every pipe character. -/
def split_pipe : List Char → List (List Char)
  | [] => [[]]
  | '|' :: rest => [] :: split_pipe rest
  | c :: rest =>
      match split_pipe rest with
      | [] => [[c]]
      | seg :: segs => (c :: seg) :: segs

/-- Value of a decimal digit string (most significant first). -/
def digits_value : List Char → Nat → Nat
  | [], acc => acc
  | c :: rest, acc => digits_value rest (acc * 10 + (c.toNat - 48))

/-- Modelled from the spec: parse one segment of the pipe-separated form:
a recognized flag name yields its bits, a numeric fallback segment yields
its value, anything else is a parse failure carrying a message. -/
def parse_segment (seg : List Char) : Except String Bits :=
  match flag_table.find? (fun p => p.1.data == seg) with
  | some p => Except.ok p.2
  | none =>
      if seg ≠ [] ∧ seg.all (fun c => c.isDigit) then Except.ok (digits_value seg 0)
      else Except.error ("unrecognized flag " ++ String.mk seg)

/-- Parse every segment and take the union of the resulting bits. -/
def parse_all : List (List Char) → Except String Bits
  | [] => Except.ok 0
  | seg :: rest => do
      let b ← parse_segment seg
      let r ← parse_all rest
      pure (b ||| r)

/-- Modelled from the spec: the flags value's textual parser (`FromStr`):
accepts the pipe-separated name form (names or numeric fallback segments,
spaces around segments ignored; the empty string is the empty flags value,
as the spec's round-trip contract requires), failing if a segment is not a
recognized name or numeric fallback. -/
def from_str (s : String) : Except String Flags :=
  let chars := trim_chars s.data
  if chars = [] then Except.ok (from_bits_retain 0)
  else
    match parse_all ((split_pipe chars).map trim_chars) with
    | Except.ok b => Except.ok (from_bits_retain b)
    | Except.error e => Except.error e

/-! ### The default codec (`serialize_bits_default` / `deserialize_bits_default`) -/

/-- `serialize_bits_default`: if the serializer is human-readable, emit the
flags' display string (`collect_str`); otherwise emit the raw bits scalar
(`flags.as_ref().serialize`). -/
def serialize_bits_default (flags : Flags) (is_human_readable : Bool) : Value :=
  if is_human_readable then Value.str (display flags)
  else Value.int flags.bits

/-- `deserialize_bits_default`: if the deserializer is human-readable, expect
a string and parse it with the flags value's textual parser, turning a parse
failure into the context's custom error (`FlagsVisitor::visit_str`); otherwise
read a `Bits` scalar and convert it into the flags value. -/
def deserialize_bits_default (is_human_readable : Bool) (input : Value) : Except DeError Flags :=
  if is_human_readable then
    match input with
    | Value.str s =>
        match from_str s with
        | Except.ok v => Except.ok v
        | Except.error e => Except.error (DeError.custom e)
    | _ => Except.error (DeError.invalidType "a string value of pipe separated flags")
  else
    match deserialize_bits_value input with
    | Except.ok b => Except.ok (from_bits_retain b)
    | Except.error e => Except.error e

/-! ### The legacy codec (`legacy_format`) -/

namespace legacy_format

/-- The `SerializeStruct` builder handed out by
`serializer.serialize_struct(name, len)`: accumulates named fields in order. -/
structure SerializeStruct where
  struct_name : String
  fields : List (String × Value)

/-- `serializer.serialize_struct(name, len)`: start a record with no fields. -/
def serialize_struct (s_name : String) (_len : Nat) : SerializeStruct := ⟨s_name, []⟩

/-- `serialize_struct.serialize_field(key, value)`: append one named field. -/
def serialize_field (s : SerializeStruct) (key : String) (v : Value) : SerializeStruct :=
  ⟨s.struct_name, s.fields ++ [(key, v)]⟩

/-- `serialize_struct.end()`: finalize the builder into a record value. -/
def end_struct (s : SerializeStruct) : Value :=
  Value.record s.struct_name s.fields

/-- The `type_name::<T>()` struct tag. Its value is a format-level tag only
and is ignored by the decoder; the repository's test type name is used. -/
def flags_type_name : String := "SerdeLegacyFlags"

/-- `legacy_format::serialize`: start a struct record of one field, write
the single field `"bits"` holding `flags.bits()`, and finalize. -/
def serialize (flags : Flags) : Value :=
  end_struct (serialize_field (serialize_struct flags_type_name 1) "bits"
    (Value.int flags.bits))

/-- `BitsVisitor::visit_map`: scan the record's fields in order with an
`Option Bits` slot. A `"bits"` key with the slot already filled signals
`duplicate_field` (before its value is decoded); otherwise its value is
decoded as `Bits` and fills the slot. Any other key signals
`unknown_field(key, expected=bits)`. After the scan, an empty slot signals
`missing_field`. -/
def visit_map : List (String × Value) → Option Bits → Except DeError Bits
  | [], none => Except.error (DeError.missingField "bits")
  | [], some b => Except.ok b
  | (key, v) :: rest, slot =>
      if key = "bits" then
        match slot with
        | some _ => Except.error (DeError.duplicateField "bits")
        | none =>
            match deserialize_bits_value v with
            | Except.ok b => visit_map rest (some b)
            | Except.error e => Except.error e
      else Except.error (DeError.unknownField key ["bits"])

/-- `legacy_format::deserialize`: drive `visit_map` over the input record's
fields (the struct tag is ignored), then construct the flags value with
`from_bits_retain`. A non-record input is an invalid-type error. -/
def deserialize (input : Value) : Except DeError Flags :=
  match input with
  | Value.record _ fields =>
      match visit_map fields none with
      | Except.ok bits => Except.ok (from_bits_retain bits)
      | Except.error e => Except.error e
  | _ => Except.error (DeError.invalidType "a primitive bitflags value wrapped in a struct")

end legacy_format

/-- The union of all named flags' bits (`A|B|C|D = 15` for the repository's
test flags type). -/
def named_union : Bits := flag_table.foldl (fun acc p => acc ||| p.2) 0

/-- A flags value composed only of named flags: every set bit is covered by
the union of the named flags' bits. -/
def composed_of_named (v : Flags) : Prop := v.bits &&& named_union = v.bits

instance (v : Flags) : Decidable (composed_of_named v) := by
  unfold composed_of_named; infer_instance

/-! ### Helper lemmas about the legacy field scan -/

/-- A successful field scan consumed only fields keyed `"bits"`: any other
key is rejected as soon as it is reached. -/
theorem visit_map_ok_keys :
    ∀ (fields : List (String × Value)) (slot : Option Bits) (b : Bits),
      legacy_format.visit_map fields slot = Except.ok b →
      ∀ kv ∈ fields, kv.1 = "bits" := by
  intro fields
  induction fields with
  | nil => intro slot b _ kv hkv; cases hkv
  | cons head rest ih =>
      intro slot b h kv hkv
      obtain ⟨key, val⟩ := head
      simp only [legacy_format.visit_map] at h
      by_cases hk : key = "bits"
      · rw [if_pos hk] at h
        cases slot with
        | some b0 => exact absurd h (by simp)
        | none =>
            cases hdv : deserialize_bits_value val with
            | ok b2 =>
                rw [hdv] at h
                cases hkv with
                | head => exact hk
                | tail _ hmem => exact ih (some b2) b h kv hmem
            | error e => rw [hdv] at h; exact absurd h (by simp)
      · rw [if_neg hk] at h
        exact absurd h (by simp)

/-- A successful field scan saw the `"bits"` key at most once in total,
counting a pre-filled slot: a second occurrence trips the duplicate check. -/
theorem visit_map_ok_single :
    ∀ (fields : List (String × Value)) (slot : Option Bits) (b : Bits),
      legacy_format.visit_map fields slot = Except.ok b →
      fields.countP (fun kv => kv.1 == "bits") +
        (match slot with | some _ => 1 | none => 0) ≤ 1 := by
  intro fields
  induction fields with
  | nil =>
      intro slot b _
      cases slot <;> simp [List.countP_nil]
  | cons head rest ih =>
      intro slot b h
      obtain ⟨key, val⟩ := head
      simp only [legacy_format.visit_map] at h
      by_cases hk : key = "bits"
      · rw [if_pos hk] at h
        cases slot with
        | some b0 => exact absurd h (by simp)
        | none =>
            cases hdv : deserialize_bits_value val with
            | ok b2 =>
                rw [hdv] at h
                have := ih (some b2) b h
                simp only [List.countP_cons, hk] at this ⊢
                simpa using this
            | error e => rw [hdv] at h; exact absurd h (by simp)
      · rw [if_neg hk] at h
        exact absurd h (by simp)

/-- A successful legacy decode means the field scan succeeded. -/
theorem legacy_deserialize_ok (struct_tag : String) (fields : List (String × Value))
    (w : Flags)
    (h : legacy_format.deserialize (Value.record struct_tag fields) = Except.ok w) :
    legacy_format.visit_map fields none = Except.ok w.bits := by
  simp only [legacy_format.deserialize] at h
  cases hvm : legacy_format.visit_map fields none with
  | ok b => rw [hvm] at h; cases h; rfl
  | error e => rw [hvm] at h; exact absurd h (by simp)

/-! ### Claim theorems -/

/-- C1: for every flags value `v`, encoding `v` with the legacy codec and
then decoding the result with the legacy codec succeeds and yields a flags
value whose `bits` equals `v.bits` exactly, including bit patterns containing
bits with no named flag. -/
theorem legacy_roundtrip (v : Flags) :
    ∃ w : Flags,
      legacy_format.deserialize (legacy_format.serialize v) = Except.ok w ∧
        w.bits = v.bits :=
  ⟨⟨v.bits⟩, rfl, rfl⟩

/-- C2: for every flags value `v`, encoding `v` with the default codec in
non-human-readable (binary) mode and then decoding the result with the
default codec in the same mode yields a flags value whose `bits` equals
`v.bits` exactly, including bits with no named flag. -/
theorem default_binary_roundtrip (v : Flags) :
    ∃ w : Flags,
      deserialize_bits_default false (serialize_bits_default v false) = Except.ok w ∧
        w.bits = v.bits :=
  ⟨⟨v.bits⟩, rfl, rfl⟩

/-- C3: for every flags value `v` composed only of named flags, encoding `v`
with the default codec in human-readable mode and then decoding the
resulting string with the default codec in human-readable mode succeeds and
yields a flags value whose `bits` equals `v.bits`. -/
theorem default_human_readable_roundtrip (v : Flags) (h : composed_of_named v) :
    ∃ w : Flags,
      deserialize_bits_default true (serialize_bits_default v true) = Except.ok w ∧
        w.bits = v.bits := by
  obtain ⟨b⟩ := v
  have h15 : b &&& 15 = b := h
  have hb : b < 16 := by
    have hle : b &&& 15 ≤ 15 := Nat.and_le_right
    rw [h15] at hle
    exact Nat.lt_succ_of_le hle
  have key : ∀ n, n < 16 →
      deserialize_bits_default true (serialize_bits_default ⟨n⟩ true) =
        Except.ok ⟨n⟩ := by decide
  exact ⟨⟨b⟩, key b hb, rfl⟩

/-- C3 witness: the round-trip property applied to the named-only flags
value A|B (bits 3). -/
theorem default_human_readable_roundtrip_witness :
    composed_of_named ⟨3⟩ ∧
      ∃ w : Flags,
        deserialize_bits_default true (serialize_bits_default ⟨3⟩ true) = Except.ok w ∧
          w.bits = (⟨3⟩ : Flags).bits :=
  ⟨by decide, default_human_readable_roundtrip ⟨3⟩ (by decide)⟩

/-- C4: for every flags value `v`, the legacy codec's encode emits a
structured record containing exactly one field, named `"bits"`, whose value
is `v.bits` (so A|B, bits 3, encodes as the record with the single field
`bits = 3`). -/
theorem legacy_serialize_single_bits_field (v : Flags) :
    legacy_format.serialize v =
      Value.record legacy_format.flags_type_name [("bits", Value.int v.bits)] :=
  rfl

/-- C5 counterexample: the record with fields `bits=1, bits=2, extra=3`
contains a field (`"extra"`) whose key is not `"bits"`, yet the legacy
decode fails with `DuplicateField("bits")`, not with
`UnknownField("extra", ...)`: an earlier error preempts the unknown-field
rejection, so the claim as stated is false. -/
theorem legacy_unknown_field_counterexample :
    legacy_format.deserialize (Value.record "SerdeLegacyFlags"
        [("bits", Value.int 1), ("bits", Value.int 2), ("extra", Value.int 3)]) =
      Except.error (DeError.duplicateField "bits") ∧
    legacy_format.deserialize (Value.record "SerdeLegacyFlags"
        [("bits", Value.int 1), ("bits", Value.int 2), ("extra", Value.int 3)]) ≠
      Except.error (DeError.unknownField "extra" ["bits"]) :=
  ⟨rfl, by decide⟩

/-- C5 (amended): a record containing any field whose key is not `"bits"`
never decodes successfully (unrecognized fields are never silently ignored);
and when the first non-`"bits"` field is preceded only by at most one
`"bits"` field whose value reads as `Bits`, decoding fails with
`UnknownField` carrying that key and the expected-field list `["bits"]`. -/
theorem legacy_unknown_field_rejection :
    (∀ struct_tag fields, (∃ kv ∈ fields, kv.1 ≠ "bits") →
        ∀ w : Flags,
          legacy_format.deserialize (Value.record struct_tag fields) ≠ Except.ok w) ∧
    (∀ struct_tag k v rest, k ≠ "bits" →
        legacy_format.deserialize (Value.record struct_tag ((k, v) :: rest)) =
          Except.error (DeError.unknownField k ["bits"])) ∧
    (∀ struct_tag b k v2 rest, k ≠ "bits" →
        legacy_format.deserialize
            (Value.record struct_tag (("bits", Value.int b) :: (k, v2) :: rest)) =
          Except.error (DeError.unknownField k ["bits"])) := by
  refine ⟨?_, ?_, ?_⟩
  · intro struct_tag fields hex w hok
    obtain ⟨kv, hmem, hne⟩ := hex
    exact hne (visit_map_ok_keys fields none w.bits
      (legacy_deserialize_ok struct_tag fields w hok) kv hmem)
  · intro struct_tag k v rest hk
    simp [legacy_format.deserialize, legacy_format.visit_map, hk]
  · intro struct_tag b k v2 rest hk
    simp [legacy_format.deserialize, legacy_format.visit_map, deserialize_bits_value, hk]

/-- C5 witness: the amended rejection applied to concrete records containing
the unknown field `"other"`. -/
theorem legacy_unknown_field_rejection_witness :
    legacy_format.deserialize (Value.record "SerdeLegacyFlags"
        [("bits", Value.int 1), ("other", Value.int 2)]) ≠
      Except.ok (⟨1⟩ : Flags) ∧
    legacy_format.deserialize (Value.record "SerdeLegacyFlags"
        [("other", Value.int 2)]) =
      Except.error (DeError.unknownField "other" ["bits"]) ∧
    legacy_format.deserialize (Value.record "SerdeLegacyFlags"
        [("bits", Value.int 1), ("other", Value.int 2)]) =
      Except.error (DeError.unknownField "other" ["bits"]) :=
  ⟨legacy_unknown_field_rejection.1 "SerdeLegacyFlags"
      [("bits", Value.int 1), ("other", Value.int 2)]
      ⟨("other", Value.int 2), List.Mem.tail _ (List.Mem.head _), by decide⟩ ⟨1⟩,
   legacy_unknown_field_rejection.2.1 "SerdeLegacyFlags" "other" (Value.int 2) []
      (by decide),
   legacy_unknown_field_rejection.2.2 "SerdeLegacyFlags" 1 "other" (Value.int 2) []
      (by decide)⟩

/-- C6 counterexample: the record with the single field `extra=1` contains
no `"bits"` field, yet the legacy decode fails with
`UnknownField("extra", ...)`, not `MissingField("bits")`: the scan aborts
at the unknown key before it can complete, so the claim as stated is
false. -/
theorem legacy_missing_field_counterexample :
    legacy_format.deserialize
        (Value.record "SerdeLegacyFlags" [("extra", Value.int 1)]) =
      Except.error (DeError.unknownField "extra" ["bits"]) ∧
    legacy_format.deserialize
        (Value.record "SerdeLegacyFlags" [("extra", Value.int 1)]) ≠
      Except.error (DeError.missingField "bits") :=
  ⟨rfl, by decide⟩

/-- C6 (amended): a record in which no `"bits"` field appears always fails
to decode: the empty record fails with `MissingField("bits")` after the
scan completes, while a non-empty such record fails with `UnknownField`
carrying its first key. -/
theorem legacy_missing_field_rejection :
    (∀ struct_tag,
        legacy_format.deserialize (Value.record struct_tag []) =
          Except.error (DeError.missingField "bits")) ∧
    (∀ struct_tag k v rest, k ≠ "bits" → (∀ kv ∈ rest, kv.1 ≠ "bits") →
        legacy_format.deserialize (Value.record struct_tag ((k, v) :: rest)) =
          Except.error (DeError.unknownField k ["bits"])) := by
  refine ⟨fun struct_tag => rfl, ?_⟩
  intro struct_tag k v rest hk _
  simp [legacy_format.deserialize, legacy_format.visit_map, hk]

/-- C6 witness: the amended rejection applied to the empty record and to
the bits-free record with the single field `"extra"`. -/
theorem legacy_missing_field_rejection_witness :
    legacy_format.deserialize (Value.record "SerdeLegacyFlags" []) =
      Except.error (DeError.missingField "bits") ∧
    legacy_format.deserialize
        (Value.record "SerdeLegacyFlags" [("extra", Value.int 1)]) =
      Except.error (DeError.unknownField "extra" ["bits"]) :=
  ⟨legacy_missing_field_rejection.1 "SerdeLegacyFlags",
   legacy_missing_field_rejection.2 "SerdeLegacyFlags" "extra" (Value.int 1) []
      (by decide) (by intro kv hkv; cases hkv)⟩

/-- C7 counterexample: the record with fields `extra=1, bits=2, bits=3` has
`"bits"` appearing more than once, yet the legacy decode fails with
`UnknownField("extra", ...)`, not `DuplicateField("bits")`: the unknown
first key aborts the scan before the duplicate is reached, so the claim as
stated is false. -/
theorem legacy_duplicate_field_counterexample :
    legacy_format.deserialize (Value.record "SerdeLegacyFlags"
        [("extra", Value.int 1), ("bits", Value.int 2), ("bits", Value.int 3)]) =
      Except.error (DeError.unknownField "extra" ["bits"]) ∧
    legacy_format.deserialize (Value.record "SerdeLegacyFlags"
        [("extra", Value.int 1), ("bits", Value.int 2), ("bits", Value.int 3)]) ≠
      Except.error (DeError.duplicateField "bits") :=
  ⟨rfl, by decide⟩

/-- C7 (amended): a record in which `"bits"` appears more than once never
decodes successfully; and when the scan actually reaches the second
occurrence — the record beginning with a `"bits"` field holding an integer
followed immediately by another `"bits"` field — decoding fails with
`DuplicateField("bits")`. -/
theorem legacy_duplicate_field_rejection :
    (∀ struct_tag fields,
        2 ≤ fields.countP (fun kv => kv.1 == "bits") →
        ∀ w : Flags,
          legacy_format.deserialize (Value.record struct_tag fields) ≠ Except.ok w) ∧
    (∀ struct_tag b v2 rest,
        legacy_format.deserialize
            (Value.record struct_tag (("bits", Value.int b) :: ("bits", v2) :: rest)) =
          Except.error (DeError.duplicateField "bits")) := by
  refine ⟨?_, fun struct_tag b v2 rest => rfl⟩
  intro struct_tag fields hcount w hok
  have hone := visit_map_ok_single fields none w.bits
    (legacy_deserialize_ok struct_tag fields w hok)
  simp only at hone
  omega

/-- C7 witness: the amended rejection applied to concrete records with a
doubled `"bits"` field. -/
theorem legacy_duplicate_field_rejection_witness :
    legacy_format.deserialize (Value.record "SerdeLegacyFlags"
        [("bits", Value.int 1), ("bits", Value.int 2)]) ≠
      Except.ok (⟨1⟩ : Flags) ∧
    legacy_format.deserialize (Value.record "SerdeLegacyFlags"
        [("bits", Value.int 1), ("bits", Value.int 2)]) =
      Except.error (DeError.duplicateField "bits") :=
  ⟨legacy_duplicate_field_rejection.1 "SerdeLegacyFlags"
      [("bits", Value.int 1), ("bits", Value.int 2)] (by decide) ⟨1⟩,
   legacy_duplicate_field_rejection.2 "SerdeLegacyFlags" 1 (Value.int 2) []⟩

/-- C8: in human-readable mode, the default codec's decode of a string the
parser rejects fails with the context's custom error carrying the parser's
own error message, and the decode of a string the parser accepts succeeds
with the parsed flags value. -/
theorem default_human_readable_parse (s : String) :
    (∀ e, from_str s = Except.error e →
        deserialize_bits_default true (Value.str s) =
          Except.error (DeError.custom e)) ∧
    (∀ v, from_str s = Except.ok v →
        deserialize_bits_default true (Value.str s) = Except.ok v) := by
  constructor <;> intro x hx <;> simp [deserialize_bits_default, hx]

/-- C8 witness: the parser rejects `"E"` (no such flag) and the decode
surfaces the same message as a custom error; the parser accepts `"A | B"`
and the decode yields the parsed value (bits 3). -/
theorem default_human_readable_parse_witness :
    (from_str "E" = Except.error "unrecognized flag E" ∧
      deserialize_bits_default true (Value.str "E") =
        Except.error (DeError.custom "unrecognized flag E")) ∧
    (from_str "A | B" = Except.ok (⟨3⟩ : Flags) ∧
      deserialize_bits_default true (Value.str "A | B") = Except.ok (⟨3⟩ : Flags)) :=
  ⟨⟨by decide, (default_human_readable_parse "E").1 "unrecognized flag E" (by decide)⟩,
   ⟨by decide, (default_human_readable_parse "A | B").2 ⟨3⟩ (by decide)⟩⟩

/-- C9: constructing a flags value from a successfully read `Bits` scalar
never fails and preserves the bit pattern: the default codec's binary decode
of any raw integer `b` yields `bits = b` (for example `9`), and the legacy
codec's decode applies the same total construction to the bits produced by
its field scan. -/
theorem decode_bits_total :
    (∀ b : Bits,
        deserialize_bits_default false (Value.int b) =
          Except.ok (from_bits_retain b) ∧ (from_bits_retain b).bits = b) ∧
    ((deserialize_bits_default false (Value.int 9)).map Flags.bits = Except.ok 9) ∧
    (∀ struct_tag fields b, legacy_format.visit_map fields none = Except.ok b →
        legacy_format.deserialize (Value.record struct_tag fields) =
          Except.ok (from_bits_retain b) ∧ (from_bits_retain b).bits = b) := by
  refine ⟨fun b => ⟨rfl, rfl⟩, rfl, ?_⟩
  intro struct_tag fields b h
  exact ⟨by simp [legacy_format.deserialize, h], rfl⟩

/-- C9 witness: the legacy field scan of the single field `bits=9` yields 9
and the decode constructs the flags value with bits 9. -/
theorem decode_bits_total_witness :
    legacy_format.visit_map [("bits", Value.int 9)] none = Except.ok 9 ∧
      (legacy_format.deserialize
          (Value.record "SerdeLegacyFlags" [("bits", Value.int 9)]) =
            Except.ok (from_bits_retain 9) ∧ (from_bits_retain 9).bits = 9) :=
  ⟨by decide,
   decode_bits_total.2.2 "SerdeLegacyFlags" [("bits", Value.int 9)] 9 (by decide)⟩

/-- C10 counterexample: the record with fields `bits="x", bits=3` has the
key `"bits"` twice, yet the legacy decode fails with the invalid-type error
from reading the first field's value, not `DuplicateField("bits")`: the
first occurrence's value is decoded before the second occurrence can trip
the duplicate check, so the claim as stated is false. -/
theorem legacy_duplicate_check_counterexample :
    legacy_format.deserialize (Value.record "SerdeLegacyFlags"
        [("bits", Value.str "x"), ("bits", Value.int 3)]) =
      Except.error (DeError.invalidType "an integer of the Bits type") ∧
    legacy_format.deserialize (Value.record "SerdeLegacyFlags"
        [("bits", Value.str "x"), ("bits", Value.int 3)]) ≠
      Except.error (DeError.duplicateField "bits") :=
  ⟨rfl, by decide⟩

/-- C10 (amended): when the scan reaches a second `"bits"` key — the first
`"bits"` field's value having been read as `Bits` — the duplicate check
fires before the second field's value is decoded and the scan stops there:
decoding fails with `DuplicateField("bits")` for every second value
(decodable as `Bits` or not) and every tail of later fields, none of which
is examined. -/
theorem legacy_duplicate_check_before_value (struct_tag : String) (v1 : Value)
    (b : Bits) (v2 : Value) (rest : List (String × Value))
    (h : deserialize_bits_value v1 = Except.ok b) :
    legacy_format.deserialize
        (Value.record struct_tag (("bits", v1) :: ("bits", v2) :: rest)) =
      Except.error (DeError.duplicateField "bits") := by
  simp [legacy_format.deserialize, legacy_format.visit_map, h]

/-- C10 witness: the duplicate check fires on `bits=7, bits="nope", junk=0`
even though the second `"bits"` value is not decodable as `Bits` and a junk
field follows. -/
theorem legacy_duplicate_check_before_value_witness :
    deserialize_bits_value (Value.int 7) = Except.ok 7 ∧
      legacy_format.deserialize (Value.record "SerdeLegacyFlags"
          [("bits", Value.int 7), ("bits", Value.str "nope"), ("junk", Value.int 0)]) =
        Except.error (DeError.duplicateField "bits") :=
  ⟨rfl, legacy_duplicate_check_before_value "SerdeLegacyFlags" (Value.int 7) 7
      (Value.str "nope") [("junk", Value.int 0)] rfl⟩
